import Mathlib

/-!
Verification of the promo-request feasibility simulator of the Factory
Control Tower repository.  The core under verification is the function
`simulate_request` of `app.py` (section "5. Scenario simulator core"),
a pure function of a data snapshot and a request.  The embedding below
translates that function and its helpers into Lean: pandas data frames
become lists of records, the date type becomes `Int` day numbers (the
source compares and sorts dates, nothing more), case quantities become
`Int`, and the human-readable blocker strings become structured values
carrying exactly the data the source interpolates into them.
-/

namespace FlowKa

/-- Schedule row as loaded by `load_master_data_for_sim` (`schedule` table):
line id, production date, product id, planned quantity in cases, firmness. -/
structure ScheduleEntry where
  line_id : Nat
  production_date : Int
  product_id : Nat
  planned_qty_cases : Int
  is_firm : Bool
deriving DecidableEq

/-- Line row (`lines` table): id and daily capacity in cases.  The line name
is display-only in the source and not modelled. -/
structure Line where
  line_id : Nat
  daily_capacity_cases : Int
deriving DecidableEq

/-- Line-capability row (`line_capability` table): which line can run which
product, at which hourly rate.  The rate is loaded but unused by
`simulate_request`; it is kept for fidelity to the loaded snapshot. -/
structure LineCapability where
  line_id : Nat
  product_id : Nat
  rate_cases_per_hour : Int
deriving DecidableEq

/-- Bill-of-material row (`bill_of_materials` joined with `materials`):
material requirement per case of a product, with the supplier lead time
carried along for the shortage message.  The material name of the join is
identified by `material_id` here. -/
structure BomLine where
  product_id : Nat
  material_id : Nat
  qty_per_case : Int
  supplier_lead_time_days : Option Int
deriving DecidableEq

/-- Inventory row (`inventory_materials` table): on-hand quantity of a
material.  The table is keyed by `material_id`. -/
structure InventoryRow where
  material_id : Nat
  on_hand_qty : Int
deriving DecidableEq

/-- The snapshot dict returned by `load_master_data_for_sim` (the `products`
frame only feeds the UI dropdown and is not part of the simulation). -/
structure Snapshot where
  schedule : List ScheduleEntry
  lines : List Line
  capability : List LineCapability
  bom : List BomLine
  inventory : List InventoryRow
deriving DecidableEq

/-- One entry of `plan_rows` appended by the allocator loop of
`simulate_request`. -/
structure PlanRow where
  line_id : Nat
  production_date : Int
  allocated_cases : Int
  used_headroom : Int
  bumped_flexible : Int
deriving DecidableEq

/-- Structured form of a `mat_blockers` string of `simulate_request`:
`shortage m a t` embeds `"{name m} short by {a} (lead {t}d)"`, `noBom`
embeds `"No BOM for this SKU."`, and `noCapableLine` embeds the
`"No line can run this product"` entry of the no-capability early return. -/
inductive MatBlocker where
  | shortage (material_id : Nat) (amount : Int) (supplier_lead_time_days : Option Int)
  | noBom
  | noCapableLine
deriving DecidableEq

/-- Structured form of a `cap_blockers` string: `short r d` embeds
`"Short {r} cases before {d}"`, `noCapableLine` embeds
`"No capable line found"`. -/
inductive CapBlocker where
  | short (remaining : Int) (due_date : Int)
  | noCapableLine
deriving DecidableEq

/-- Structured form of the `message` string composed for the DC: the
fully-approved sentence, the no-capable-line sentence, or the sequence of
clauses (partial coverage, remaining shortfall, material constraints) of
the infeasible branch, each clause present exactly when the source emits
it. -/
inductive Message where
  | approved (extra_cases : Int) (due_date : Int)
  | noLineForSku
  | shortfall (covered : Option Int) (remainingShort : Option Int)
      (materialConstraints : List MatBlocker)
deriving DecidableEq

/-- The dict returned by `simulate_request`. -/
structure SimResult where
  can_fulfill : Bool
  allocated_total : Int
  remaining : Int
  plan_rows : List PlanRow
  material_blockers : List MatBlocker
  capacity_blockers : List CapBlocker
  message : Message
deriving DecidableEq

/-- First-occurrence deduplication with an accumulator of already-seen
elements; `dedupFirst` below embeds pandas `Series.unique()`, which keeps
the first occurrence of each value in order of appearance. -/
def dedupSeen {α : Type} [DecidableEq α] (seen : List α) : List α → List α
  | [] => []
  | x :: xs => if x ∈ seen then dedupSeen seen xs else x :: dedupSeen (x :: seen) xs

/-- Embedding of pandas `.unique()` on a column. -/
def dedupFirst {α : Type} [DecidableEq α] (l : List α) : List α :=
  dedupSeen [] l

/-- Insertion into an ascending list, auxiliary to `sortDates`. -/
def insertSorted (x : Int) : List Int → List Int
  | [] => [x]
  | y :: ys => if x ≤ y then x :: y :: ys else y :: insertSorted x ys

/-- Embedding of Python `sorted` (ascending) on a list of dates. -/
def sortDates : List Int → List Int
  | [] => []
  | d :: ds => insertSorted d (sortDates ds)

/-- Embedding of `sched_window = schedule_df[schedule_df["prod_date_only"] <= due_date_obj]`:
the schedule entries dated on or before the due date. -/
def sched_window (due_date : Int) (sched : List ScheduleEntry) : List ScheduleEntry :=
  sched.filter (fun e => decide (e.production_date ≤ due_date))

/-- Embedding of `capable_lines = cap_df[cap_df["product_id"] == product_id]["line_id"].unique().tolist()`. -/
def capable_lines (cap : List LineCapability) (product_id : Nat) : List Nat :=
  dedupFirst ((cap.filter (fun c => decide (c.product_id = product_id))).map
    (fun c => c.line_id))

/-- Embedding of `sorted(sched_window["prod_date_only"].unique())`: the
ascending list of distinct dates present in the filtered window. -/
def window_dates (window : List ScheduleEntry) : List Int :=
  sortDates (dedupFirst (window.map (fun e => e.production_date)))

/-- Embedding of `todays_runs = sched_window[(line_id ==) & (prod_date_only ==)]`. -/
def todays_runs (window : List ScheduleEntry) (line_id : Nat) (this_date : Int) :
    List ScheduleEntry :=
  window.filter (fun e =>
    decide (e.line_id = line_id) && decide (e.production_date = this_date))

/-- Sum of the `planned_qty_cases` column (a pandas `.sum()`, which is 0 on
an empty frame, matching the source's `if len(todays_runs) else 0`). -/
def sum_planned (runs : List ScheduleEntry) : Int :=
  (runs.map (fun e => e.planned_qty_cases)).sum

/-- Embedding of `flex_cases = todays_runs[~todays_runs["is_firm"]]["planned_qty_cases"].sum()`. -/
def flex_cases (runs : List ScheduleEntry) : Int :=
  sum_planned (runs.filter (fun e => !e.is_firm))

/-- Embedding of `headroom = max(daily_capacity - total_planned, 0)`. -/
def headroom (daily_capacity total_planned : Int) : Int :=
  max (daily_capacity - total_planned) 0

/-- One iteration of the inner `for line_id in capable_lines` loop of
`simulate_request`, threading the `(remaining, plan_rows)` state.  The
source's `break` on `remaining <= 0` is modelled as a skip guard, which
yields the same final state because `remaining` never increases. -/
def alloc_line (lines : List Line) (window : List ScheduleEntry) (this_date : Int)
    (st : Int × List PlanRow) (line_id : Nat) : Int × List PlanRow :=
  if st.1 ≤ 0 then st
  else
    match lines.find? (fun l => decide (l.line_id = line_id)) with
    | none => st
    | some line_cap_row =>
      let daily_capacity := line_cap_row.daily_capacity_cases
      let runs := todays_runs window line_id this_date
      let total_planned := sum_planned runs
      let hr := headroom daily_capacity total_planned
      let flex := flex_cases runs
      let possible_today := hr + flex
      if possible_today ≤ 0 then st
      else
        let allocate_now := min possible_today st.1
        (st.1 - allocate_now,
          st.2 ++ [{ line_id := line_id
                     production_date := this_date
                     allocated_cases := allocate_now
                     used_headroom := min hr allocate_now
                     bumped_flexible := max 0 (allocate_now - hr) }])

/-- One iteration of the outer `for this_date in sorted(...)` loop: the
`break` on `remaining <= 0` is again a skip guard, then the capable lines
are folded in order. -/
def alloc_date (lines : List Line) (window : List ScheduleEntry) (capable : List Nat)
    (st : Int × List PlanRow) (this_date : Int) : Int × List PlanRow :=
  if st.1 ≤ 0 then st
  else capable.foldl (alloc_line lines window this_date) st

/-- The whole allocator double loop of `simulate_request`, from
`remaining = extra_cases; plan_rows = []` to the final
`(remaining, plan_rows)` pair. -/
def run_allocation (data : Snapshot) (product_id : Nat) (extra_cases due_date : Int) :
    Int × List PlanRow :=
  (window_dates (sched_window due_date data.schedule)).foldl
    (alloc_date data.lines (sched_window due_date data.schedule)
      (capable_lines data.capability product_id))
    (extra_cases, [])

/-- Embedding of the left merge of `inv_df` onto the BOM rows: the on-hand
quantity of a material, with a missing inventory record mapped to 0
(the source's `float(r["on_hand_qty"]) if pd.notnull(...) else 0.0`). -/
def on_hand (inv : List InventoryRow) (material_id : Nat) : Int :=
  match inv.find? (fun i => decide (i.material_id = material_id)) with
  | some i => i.on_hand_qty
  | none => 0

/-- Embedding of the `MATERIAL CHECK` block of `simulate_request`: filter
the BOM to the requested product, scale every `qty_per_case` by the
tentatively allocated total, and report each material whose requirement
exceeds on-hand stock; an empty BOM yields the single `noBom` note. -/
def material_check (bom : List BomLine) (inv : List InventoryRow) (product_id : Nat)
    (allocated_total : Int) : List MatBlocker :=
  let sku_bom := bom.filter (fun b => decide (b.product_id = product_id))
  if sku_bom = [] then [MatBlocker.noBom]
  else
    sku_bom.filterMap (fun b =>
      let needed_qty := b.qty_per_case * allocated_total
      let have_qty := on_hand inv b.material_id
      if have_qty < needed_qty then
        some (MatBlocker.shortage b.material_id (needed_qty - have_qty)
          b.supplier_lead_time_days)
      else none)

/-- Embedding of the tail of `simulate_request` after the allocator loop:
`allocated_total`, the material check result, the `CAPACITY BLOCKERS`
block, the `MESSAGE FOR DC` block, and the returned dict. -/
def compose_result (extra_cases due_date : Int) (st : Int × List PlanRow)
    (mat_blockers : List MatBlocker) : SimResult :=
  let remaining := st.1
  let allocated_total := extra_cases - remaining
  let cap_blockers :=
    if 0 < remaining then [CapBlocker.short remaining due_date] else []
  if remaining ≤ 0 ∧ mat_blockers = [] then
    { can_fulfill := true
      allocated_total := allocated_total
      remaining := remaining
      plan_rows := st.2
      material_blockers := mat_blockers
      capacity_blockers := cap_blockers
      message := Message.approved extra_cases due_date }
  else
    { can_fulfill := false
      allocated_total := allocated_total
      remaining := remaining
      plan_rows := st.2
      material_blockers := mat_blockers
      capacity_blockers := cap_blockers
      message := Message.shortfall
        (if 0 < allocated_total then some allocated_total else none)
        (if 0 < remaining then some remaining else none)
        mat_blockers }

/-- Embedding of `simulate_request(product_id, extra_cases, due_date_str, data)`
of `app.py`.  The `pd.to_datetime` parse of the due-date string is outside
the embedded domain: the function receives the parsed date (a parse
failure raises in the source before any of the embedded logic runs).
Note the source performs no validation of `extra_cases`. -/
def simulate_request (product_id : Nat) (extra_cases due_date : Int)
    (data : Snapshot) : SimResult :=
  if capable_lines data.capability product_id = [] then
    { can_fulfill := false
      allocated_total := 0
      remaining := extra_cases
      plan_rows := []
      material_blockers := [MatBlocker.noCapableLine]
      capacity_blockers := [CapBlocker.noCapableLine]
      message := Message.noLineForSku }
  else
    let st := run_allocation data product_id extra_cases due_date
    compose_result extra_cases due_date st
      (material_check data.bom data.inventory product_id (extra_cases - st.1))

/-- Sum of the allocated cases over a plan. -/
def sum_alloc (plan : List PlanRow) : Int :=
  (plan.map (fun r => r.allocated_cases)).sum

/-- Concrete snapshot for witnesses: one line of capacity 100, capable of
product 1; one flexible run of 30 cases of product 2 on day 5; product 1
needs 2 units of material 7 per case and 10 units are on hand. -/
def snapW : Snapshot :=
  { schedule := [⟨1, 5, 2, 30, false⟩]
    lines := [⟨1, 100⟩]
    capability := [⟨1, 1, 10⟩]
    bom := [⟨1, 7, 2, some 3⟩]
    inventory := [⟨7, 10⟩] }

/-- Variant of `snapW` with no capability rows at all. -/
def snapNoCap : Snapshot :=
  { snapW with capability := [] }

/-- Variant of `snapW` with no capability rows and no BOM rows. -/
def snapNoCapNoBom : Snapshot :=
  { snapW with capability := [], bom := [] }

/-- Variant of `snapW` with no BOM rows (capability intact). -/
def snapNoBom : Snapshot :=
  { snapW with bom := [] }

/-- Generic value-preservation of a fold: a quantity left unchanged by each
step is unchanged by the whole fold. -/
theorem foldl_pres {α β : Type} {f : β → α → β} (g : β → Int)
    (h : ∀ b a, g (f b a) = g b) :
    ∀ (l : List α) (b : β), g (l.foldl f b) = g b := by
  intro l
  induction l with
  | nil => intro b; rfl
  | cons x xs ih => intro b; rw [List.foldl_cons, ih, h]

/-- Generic invariant-preservation of a fold, with a side condition on the
folded elements. -/
theorem foldl_inv {α β : Type} {f : β → α → β} {P : β → Prop} {R : α → Prop}
    (h : ∀ b a, R a → P b → P (f b a)) :
    ∀ (l : List α) (b : β), (∀ a ∈ l, R a) → P b → P (l.foldl f b) := by
  intro l
  induction l with
  | nil => intro b _ hb; exact hb
  | cons x xs ih =>
      intro b hr hb
      exact ih (f b x)
        (fun a ha => hr a (List.mem_cons_of_mem _ ha))
        (h b x (hr x (List.mem_cons_self _ _)) hb)

/-- Every member of a deduplicated list is a member of the original list. -/
theorem mem_dedupSeen {α : Type} [DecidableEq α] (a : α) :
    ∀ (l seen : List α), a ∈ dedupSeen seen l → a ∈ l := by
  intro l
  induction l with
  | nil => intro seen h; simp [dedupSeen] at h
  | cons x xs ih =>
      intro seen h
      simp only [dedupSeen] at h
      split at h
      · exact List.mem_cons_of_mem _ (ih _ h)
      · rcases List.mem_cons.mp h with h1 | h2
        · exact h1 ▸ List.mem_cons_self _ _
        · exact List.mem_cons_of_mem _ (ih _ h2)

/-- Membership transfer for `dedupFirst`. -/
theorem mem_dedupFirst {α : Type} [DecidableEq α] (a : α) (l : List α)
    (h : a ∈ dedupFirst l) : a ∈ l :=
  mem_dedupSeen a l [] h

/-- Deduplication yields the empty list exactly on the empty list. -/
theorem dedupFirst_eq_nil {α : Type} [DecidableEq α] (l : List α) :
    dedupFirst l = [] ↔ l = [] := by
  cases l with
  | nil => simp [dedupFirst, dedupSeen]
  | cons x xs => simp [dedupFirst, dedupSeen]

/-- Membership characterization of `insertSorted`. -/
theorem mem_insertSorted (a x : Int) :
    ∀ l : List Int, a ∈ insertSorted x l ↔ a = x ∨ a ∈ l := by
  intro l
  induction l with
  | nil => simp [insertSorted]
  | cons y ys ih =>
      simp only [insertSorted]
      split
      · simp [List.mem_cons]
      · simp only [List.mem_cons, ih]
        tauto

/-- Sorting preserves membership. -/
theorem mem_sortDates (a : Int) : ∀ l : List Int, a ∈ sortDates l ↔ a ∈ l := by
  intro l
  induction l with
  | nil => simp [sortDates]
  | cons d ds ih => simp [sortDates, mem_insertSorted, ih]

/-- Membership characterization of the due-date window: exactly the
schedule entries dated on or before the due date. -/
theorem mem_sched_window (e : ScheduleEntry) (due_date : Int)
    (sched : List ScheduleEntry) :
    e ∈ sched_window due_date sched ↔ e ∈ sched ∧ e.production_date ≤ due_date := by
  simp [sched_window, List.mem_filter]

/-- Every date iterated by the allocator lies on or before the due date. -/
theorem window_dates_le (due_date : Int) (sched : List ScheduleEntry) (d : Int)
    (hd : d ∈ window_dates (sched_window due_date sched)) : d ≤ due_date := by
  simp only [window_dates] at hd
  have h1 := (mem_sortDates d _).mp hd
  have h2 := mem_dedupFirst d _ h1
  rcases List.mem_map.mp h2 with ⟨e, he, hde⟩
  exact hde ▸ ((mem_sched_window e due_date sched).mp he).2

/-- For a date inside the window, filtering the window to a (line, date)
pair equals filtering the full schedule: the due-date cut removes no entry
dated on that very date. -/
theorem todays_runs_window (due_date this_date : Int) (sched : List ScheduleEntry)
    (line_id : Nat) (hle : this_date ≤ due_date) :
    todays_runs (sched_window due_date sched) line_id this_date
      = todays_runs sched line_id this_date := by
  simp only [todays_runs, sched_window, List.filter_filter]
  apply List.filter_congr
  intro e _
  by_cases h1 : e.line_id = line_id
  · by_cases h2 : e.production_date = this_date
    · simp [h1, h2, hle]
    · simp [h2]
  · simp [h1]

/-- Headroom is never negative. -/
theorem headroom_nonneg (daily_capacity total_planned : Int) :
    0 ≤ headroom daily_capacity total_planned :=
  le_max_right _ 0

/-- Flexible capacity is a sum of planned quantities, hence nonnegative
whenever the planned quantities are. -/
theorem flex_cases_nonneg (runs : List ScheduleEntry)
    (h : ∀ e ∈ runs, 0 ≤ e.planned_qty_cases) : 0 ≤ flex_cases runs := by
  apply List.sum_nonneg
  intro x hx
  rcases List.mem_map.mp hx with ⟨e, he, hxe⟩
  exact hxe ▸ h e (List.mem_filter.mp he).1

/-- Case analysis of one allocator step: either the state is untouched, or
the step fires (positive remaining, positive availability) and both the
remaining decrement and the appended plan row are fully determined by the
headroom and flexible capacity of the line-day. -/
theorem alloc_line_spec (lines : List Line) (window : List ScheduleEntry)
    (this_date : Int) (st : Int × List PlanRow) (line_id : Nat) :
    alloc_line lines window this_date st line_id = st
    ∨ ∃ daily_capacity : Int,
        0 < st.1
        ∧ 0 < headroom daily_capacity
              (sum_planned (todays_runs window line_id this_date))
            + flex_cases (todays_runs window line_id this_date)
        ∧ alloc_line lines window this_date st line_id
          = (st.1 - min (headroom daily_capacity
                  (sum_planned (todays_runs window line_id this_date))
                + flex_cases (todays_runs window line_id this_date)) st.1,
             st.2 ++ [{ line_id := line_id
                        production_date := this_date
                        allocated_cases := min (headroom daily_capacity
                            (sum_planned (todays_runs window line_id this_date))
                          + flex_cases (todays_runs window line_id this_date)) st.1
                        used_headroom := min (headroom daily_capacity
                            (sum_planned (todays_runs window line_id this_date)))
                          (min (headroom daily_capacity
                              (sum_planned (todays_runs window line_id this_date))
                            + flex_cases (todays_runs window line_id this_date)) st.1)
                        bumped_flexible := max 0
                          ((min (headroom daily_capacity
                              (sum_planned (todays_runs window line_id this_date))
                            + flex_cases (todays_runs window line_id this_date)) st.1)
                          - headroom daily_capacity
                              (sum_planned (todays_runs window line_id this_date))) }]) := by
  by_cases h0 : st.1 ≤ 0
  · left
    simp [alloc_line, h0]
  · rcases hf : lines.find? (fun l => decide (l.line_id = line_id)) with _ | lrow
    · left
      simp [alloc_line, h0, hf]
    · by_cases hp : headroom lrow.daily_capacity_cases
          (sum_planned (todays_runs window line_id this_date))
        + flex_cases (todays_runs window line_id this_date) ≤ 0
      · left
        simp [alloc_line, h0, hf, hp]
      · right
        refine ⟨lrow.daily_capacity_cases, by omega, by omega, ?_⟩
        simp [alloc_line, h0, hf, hp]

/-- One allocator step preserves the conservation quantity
`sum of allocated + remaining`. -/
theorem alloc_line_sum (lines : List Line) (window : List ScheduleEntry)
    (this_date : Int) (st : Int × List PlanRow) (line_id : Nat) :
    sum_alloc (alloc_line lines window this_date st line_id).2
      + (alloc_line lines window this_date st line_id).1
      = sum_alloc st.2 + st.1 := by
  rcases alloc_line_spec lines window this_date st line_id with h | ⟨dc, h1, h2, h3⟩
  · rw [h]
  · rw [h3]
    simp only [sum_alloc, List.map_append, List.sum_append, List.map_cons,
      List.map_nil, List.sum_cons, List.sum_nil]
    omega

/-- One date iteration preserves the conservation quantity. -/
theorem alloc_date_sum (lines : List Line) (window : List ScheduleEntry)
    (capable : List Nat) (st : Int × List PlanRow) (this_date : Int) :
    sum_alloc (alloc_date lines window capable st this_date).2
      + (alloc_date lines window capable st this_date).1
      = sum_alloc st.2 + st.1 := by
  unfold alloc_date
  split
  · rfl
  · exact foldl_pres (fun st : Int × List PlanRow => sum_alloc st.2 + st.1)
      (fun b a => alloc_line_sum lines window this_date b a) capable st

/-- Conservation across the whole allocator double loop. -/
theorem run_allocation_sum (data : Snapshot) (product_id : Nat)
    (extra_cases due_date : Int) :
    sum_alloc (run_allocation data product_id extra_cases due_date).2
      + (run_allocation data product_id extra_cases due_date).1 = extra_cases := by
  unfold run_allocation
  rw [foldl_pres (fun st : Int × List PlanRow => sum_alloc st.2 + st.1)
    (fun b a => alloc_date_sum data.lines (sched_window due_date data.schedule)
      (capable_lines data.capability product_id) b a)]
  simp [sum_alloc]

/-- One allocator step keeps the remaining count nonnegative. -/
theorem alloc_line_nonneg (lines : List Line) (window : List ScheduleEntry)
    (this_date : Int) (st : Int × List PlanRow) (line_id : Nat)
    (h : 0 ≤ st.1) : 0 ≤ (alloc_line lines window this_date st line_id).1 := by
  rcases alloc_line_spec lines window this_date st line_id with h1 | ⟨dc, h1, h2, h3⟩
  · rw [h1]; exact h
  · rw [h3]; simp only []; omega

/-- The remaining count stays nonnegative across the whole allocator when
the request is nonnegative. -/
theorem run_allocation_nonneg (data : Snapshot) (product_id : Nat)
    (extra_cases due_date : Int) (h : 0 ≤ extra_cases) :
    0 ≤ (run_allocation data product_id extra_cases due_date).1 := by
  unfold run_allocation
  refine foldl_inv (P := fun st : Int × List PlanRow => 0 ≤ st.1) (R := fun _ => True)
    (fun b a _ hb => ?_) _ _ (fun a _ => trivial) h
  unfold alloc_date
  split
  · exact hb
  · exact foldl_inv (P := fun st : Int × List PlanRow => 0 ≤ st.1) (R := fun _ => True)
      (fun b1 a1 _ hb1 =>
        alloc_line_nonneg data.lines (sched_window due_date data.schedule) a b1 a1 hb1)
      _ _ (fun a2 _ => trivial) hb

/-- The composed result carries the allocator's remaining count verbatim. -/
theorem compose_result_remaining (extra_cases due_date : Int)
    (st : Int × List PlanRow) (mat_blockers : List MatBlocker) :
    (compose_result extra_cases due_date st mat_blockers).remaining = st.1 := by
  by_cases h : st.1 ≤ 0 ∧ mat_blockers = [] <;> simp [compose_result, h]

/-- The composed result carries the allocator's plan verbatim. -/
theorem compose_result_plan (extra_cases due_date : Int)
    (st : Int × List PlanRow) (mat_blockers : List MatBlocker) :
    (compose_result extra_cases due_date st mat_blockers).plan_rows = st.2 := by
  by_cases h : st.1 ≤ 0 ∧ mat_blockers = [] <;> simp [compose_result, h]

/-- The composed result's allocated total is the request minus the
remaining count. -/
theorem compose_result_alloc (extra_cases due_date : Int)
    (st : Int × List PlanRow) (mat_blockers : List MatBlocker) :
    (compose_result extra_cases due_date st mat_blockers).allocated_total
      = extra_cases - st.1 := by
  by_cases h : st.1 ≤ 0 ∧ mat_blockers = [] <;> simp [compose_result, h]

/-- The composed result carries the material blocker list verbatim. -/
theorem compose_result_mat (extra_cases due_date : Int)
    (st : Int × List PlanRow) (mat_blockers : List MatBlocker) :
    (compose_result extra_cases due_date st mat_blockers).material_blockers
      = mat_blockers := by
  by_cases h : st.1 ≤ 0 ∧ mat_blockers = [] <;> simp [compose_result, h]

/-- The feasibility flag of the composed result is exactly the source's
`remaining <= 0 and len(mat_blockers) == 0` test. -/
theorem compose_result_fulfill (extra_cases due_date : Int)
    (st : Int × List PlanRow) (mat_blockers : List MatBlocker) :
    (compose_result extra_cases due_date st mat_blockers).can_fulfill = true
      ↔ st.1 ≤ 0 ∧ mat_blockers = [] := by
  by_cases h : st.1 ≤ 0 ∧ mat_blockers = [] <;> simp [compose_result, h]

/-- Reduction of `simulate_request` on its main branch (some capable line
exists). -/
theorem simulate_request_eq_main (product_id : Nat) (extra_cases due_date : Int)
    (data : Snapshot) (h : capable_lines data.capability product_id ≠ []) :
    simulate_request product_id extra_cases due_date data
      = compose_result extra_cases due_date
          (run_allocation data product_id extra_cases due_date)
          (material_check data.bom data.inventory product_id
            (extra_cases - (run_allocation data product_id extra_cases due_date).1)) := by
  unfold simulate_request
  rw [if_neg h]

/-- Reduction of `simulate_request` on the no-capability branch. -/
theorem simulate_request_eq_nocap (product_id : Nat) (extra_cases due_date : Int)
    (data : Snapshot) (h : capable_lines data.capability product_id = []) :
    simulate_request product_id extra_cases due_date data
      = { can_fulfill := false
          allocated_total := 0
          remaining := extra_cases
          plan_rows := []
          material_blockers := [MatBlocker.noCapableLine]
          capacity_blockers := [CapBlocker.noCapableLine]
          message := Message.noLineForSku } := by
  unfold simulate_request
  rw [if_pos h]

/-- The capable-line list is empty exactly when no capability row mentions
the product. -/
theorem capable_lines_eq_nil (cap : List LineCapability) (product_id : Nat) :
    capable_lines cap product_id = [] ↔ ∀ c ∈ cap, c.product_id ≠ product_id := by
  unfold capable_lines
  rw [dedupFirst_eq_nil, List.map_eq_nil_iff, List.filter_eq_nil_iff]
  simp

/-- C1: for every snapshot and request, the sum of `allocated_cases` over
the returned plan plus the returned `remaining` equals the requested extra
cases, and equivalently `allocated_total + remaining` equals the request. -/
theorem simulate_request_conservation (product_id : Nat) (extra_cases due_date : Int)
    (data : Snapshot) :
    sum_alloc (simulate_request product_id extra_cases due_date data).plan_rows
        + (simulate_request product_id extra_cases due_date data).remaining
      = extra_cases
    ∧ (simulate_request product_id extra_cases due_date data).allocated_total
        + (simulate_request product_id extra_cases due_date data).remaining
      = extra_cases := by
  by_cases h : capable_lines data.capability product_id = []
  · rw [simulate_request_eq_nocap _ _ _ _ h]
    constructor <;> simp [sum_alloc]
  · rw [simulate_request_eq_main _ _ _ _ h]
    rw [compose_result_plan, compose_result_remaining, compose_result_alloc]
    exact ⟨run_allocation_sum data product_id extra_cases due_date, by omega⟩

/-- C8: headroom for a line-day equals `max(daily_capacity − total_planned, 0)`
and is therefore never negative; when the planned total exceeds capacity the
value is clamped to 0 (over-committed days contribute no headroom). -/
theorem headroom_clamped (daily_capacity total_planned : Int) :
    0 ≤ headroom daily_capacity total_planned
    ∧ headroom daily_capacity total_planned = max (daily_capacity - total_planned) 0
    ∧ (headroom daily_capacity total_planned = 0
        ∨ headroom daily_capacity total_planned = daily_capacity - total_planned) := by
  refine ⟨headroom_nonneg _ _, rfl, ?_⟩
  unfold headroom
  rcases le_or_lt (daily_capacity - total_planned) 0 with h | h
  · left
    omega
  · right
    omega

/-- C6: when no LineCapability row exists for the requested product,
`simulate_request` returns immediately with an empty plan, zero allocated,
the full request as remaining and the no-capable-line capacity note,
regardless of schedule contents. -/
theorem simulate_request_no_capability_short_circuit (product_id : Nat)
    (extra_cases due_date : Int) (data : Snapshot)
    (h : ∀ c ∈ data.capability, c.product_id ≠ product_id) :
    simulate_request product_id extra_cases due_date data
      = { can_fulfill := false
          allocated_total := 0
          remaining := extra_cases
          plan_rows := []
          material_blockers := [MatBlocker.noCapableLine]
          capacity_blockers := [CapBlocker.noCapableLine]
          message := Message.noLineForSku } :=
  simulate_request_eq_nocap _ _ _ _ ((capable_lines_eq_nil _ _).mpr h)

/-- Witness for C6: a snapshot with a nonempty schedule but no capability
rows short-circuits exactly as stated. -/
theorem simulate_request_no_capability_short_circuit_witness :
    (∀ c ∈ snapNoCap.capability, c.product_id ≠ 1)
    ∧ simulate_request 1 50 6 snapNoCap
      = { can_fulfill := false
          allocated_total := 0
          remaining := 50
          plan_rows := []
          material_blockers := [MatBlocker.noCapableLine]
          capacity_blockers := [CapBlocker.noCapableLine]
          message := Message.noLineForSku } :=
  ⟨by decide, simulate_request_no_capability_short_circuit 1 50 6 snapNoCap (by decide)⟩

/-- C10: when a capable line exists but no schedule entry at all is dated
on or before the due date, the allocator iterates over no dates, so the
plan is empty, nothing is allocated and the full request remains. -/
theorem simulate_request_empty_window_no_allocation (product_id : Nat)
    (extra_cases due_date : Int) (data : Snapshot)
    (hcap : capable_lines data.capability product_id ≠ [])
    (hwin : sched_window due_date data.schedule = []) :
    (simulate_request product_id extra_cases due_date data).plan_rows = []
    ∧ (simulate_request product_id extra_cases due_date data).remaining = extra_cases
    ∧ (simulate_request product_id extra_cases due_date data).allocated_total = 0 := by
  rw [simulate_request_eq_main _ _ _ _ hcap, compose_result_plan,
    compose_result_remaining, compose_result_alloc]
  have h : run_allocation data product_id extra_cases due_date = (extra_cases, []) := by
    unfold run_allocation
    rw [hwin]
    rfl
  rw [h]
  exact ⟨rfl, rfl, by omega⟩

/-- Witness for C10: with `snapW`'s only schedule entry dated 5 and a due
date of 4, the window is empty and nothing is allocated although line 1 is
capable and has capacity 100. -/
theorem simulate_request_empty_window_no_allocation_witness :
    capable_lines snapW.capability 1 ≠ []
    ∧ sched_window 4 snapW.schedule = []
    ∧ ((simulate_request 1 50 4 snapW).plan_rows = []
        ∧ (simulate_request 1 50 4 snapW).remaining = 50
        ∧ (simulate_request 1 50 4 snapW).allocated_total = 0) :=
  ⟨by decide, by decide,
    simulate_request_empty_window_no_allocation 1 50 4 snapW (by decide) (by decide)⟩

/-- A fold over a function that fixes its initial state returns that
state. -/
theorem foldl_id {α β : Type} {f : β → α → β} {b : β}
    (h : ∀ a, f b a = b) : ∀ l : List α, l.foldl f b = b := by
  intro l
  induction l with
  | nil => rfl
  | cons x xs ih => rw [List.foldl_cons, h, ih]

/-- Every plan row produced by the allocator has the shape appended by
`alloc_line`, at a date inside the due-date window, with its flexible
capacity already expressed against the full snapshot schedule. -/
theorem run_allocation_rows (Q : PlanRow → Prop) (data : Snapshot)
    (product_id : Nat) (extra_cases due_date : Int)
    (hnew : ∀ (line_id : Nat) (this_date H F r : Int),
        this_date ≤ due_date → 0 ≤ H → 0 < H + F → 0 < r →
        F = flex_cases (todays_runs data.schedule line_id this_date) →
        Q { line_id := line_id
            production_date := this_date
            allocated_cases := min (H + F) r
            used_headroom := min H (min (H + F) r)
            bumped_flexible := max 0 (min (H + F) r - H) }) :
    ∀ row ∈ (run_allocation data product_id extra_cases due_date).2, Q row := by
  unfold run_allocation
  refine foldl_inv (P := fun st : Int × List PlanRow => ∀ row ∈ st.2, Q row)
    (R := fun d : Int => d ≤ due_date) ?_ _ _
    (fun d hd => window_dates_le due_date data.schedule d hd)
    (by intro row hr; exact absurd hr (List.not_mem_nil _))
  intro st d hdle hst
  unfold alloc_date
  split
  · exact hst
  · refine foldl_inv (P := fun st : Int × List PlanRow => ∀ row ∈ st.2, Q row)
      (R := fun _ : Nat => True) ?_ _ _ (fun _ _ => trivial) hst
    intro st2 lid _ hst2
    rcases alloc_line_spec data.lines (sched_window due_date data.schedule) d st2 lid
      with he | ⟨dc, h1, h2, he⟩
    · rw [he]
      exact hst2
    · rw [he]
      intro row hrow
      rcases List.mem_append.mp hrow with hmem | hmem
      · exact hst2 row hmem
      · rw [List.mem_singleton.mp hmem]
        have hcol := todays_runs_window due_date d data.schedule lid hdle
        exact hnew lid d
          (headroom dc (sum_planned
            (todays_runs (sched_window due_date data.schedule) lid d)))
          (flex_cases (todays_runs (sched_window due_date data.schedule) lid d))
          st2.1 hdle (headroom_nonneg _ _) h2 h1 (by rw [hcol])

/-- C3: every AllocationStep splits its allocation as
`allocated = used_headroom + bumped_flexible` with both parts nonnegative,
and its `bumped_flexible` never exceeds the total non-firm planned quantity
for that exact (line, date) in the snapshot — firm entries are never
displaced.  The hypothesis is the data-model invariant that planned
quantities are nonnegative. -/
theorem simulate_request_firm_inviolability (product_id : Nat)
    (extra_cases due_date : Int) (data : Snapshot)
    (hq : ∀ e ∈ data.schedule, 0 ≤ e.planned_qty_cases) :
    ∀ row ∈ (simulate_request product_id extra_cases due_date data).plan_rows,
      row.allocated_cases = row.used_headroom + row.bumped_flexible
      ∧ 0 ≤ row.used_headroom
      ∧ 0 ≤ row.bumped_flexible
      ∧ row.bumped_flexible
          ≤ flex_cases (todays_runs data.schedule row.line_id row.production_date) := by
  intro row hrow
  by_cases hcap : capable_lines data.capability product_id = []
  · rw [simulate_request_eq_nocap _ _ _ _ hcap] at hrow
    exact absurd hrow (List.not_mem_nil _)
  · rw [simulate_request_eq_main _ _ _ _ hcap, compose_result_plan] at hrow
    refine run_allocation_rows
      (fun row => row.allocated_cases = row.used_headroom + row.bumped_flexible
        ∧ 0 ≤ row.used_headroom
        ∧ 0 ≤ row.bumped_flexible
        ∧ row.bumped_flexible
            ≤ flex_cases (todays_runs data.schedule row.line_id row.production_date))
      data product_id extra_cases due_date ?_ row hrow
    intro lid d H F r hdle hH hHF hr hF
    have hFnn : 0 ≤ F := by
      rw [hF]
      apply flex_cases_nonneg
      intro e he
      exact hq e (List.mem_filter.mp he).1
    dsimp only
    refine ⟨by omega, by omega, by omega, ?_⟩
    rw [← hF]
    omega

/-- Witness for C3: the single plan row of the `snapW` run satisfies the
split and the firm-inviolability bound. -/
theorem simulate_request_firm_inviolability_witness :
    (∀ e ∈ snapW.schedule, 0 ≤ e.planned_qty_cases)
    ∧ PlanRow.mk 1 5 50 50 0 ∈ (simulate_request 1 50 6 snapW).plan_rows
    ∧ ((PlanRow.mk 1 5 50 50 0).allocated_cases
          = (PlanRow.mk 1 5 50 50 0).used_headroom
            + (PlanRow.mk 1 5 50 50 0).bumped_flexible
        ∧ 0 ≤ (PlanRow.mk 1 5 50 50 0).used_headroom
        ∧ 0 ≤ (PlanRow.mk 1 5 50 50 0).bumped_flexible
        ∧ (PlanRow.mk 1 5 50 50 0).bumped_flexible
            ≤ flex_cases (todays_runs snapW.schedule 1 5)) :=
  ⟨by decide, by decide,
    simulate_request_firm_inviolability 1 50 6 snapW (by decide) _ (by decide)⟩

/-- C7: the allocator's window contains exactly the schedule entries dated
on or before the due date (an entry dated exactly on the due date is
eligible, one dated after is not), and consequently every plan row is
dated on or before the due date. -/
theorem due_date_boundary :
    (∀ (due_date : Int) (sched : List ScheduleEntry) (e : ScheduleEntry),
        e ∈ sched_window due_date sched
          ↔ e ∈ sched ∧ e.production_date ≤ due_date)
    ∧ (∀ (product_id : Nat) (extra_cases due_date : Int) (data : Snapshot)
        (row : PlanRow),
        row ∈ (simulate_request product_id extra_cases due_date data).plan_rows →
        row.production_date ≤ due_date) := by
  constructor
  · exact fun due sched e => mem_sched_window e due sched
  · intro product_id extra_cases due_date data row hrow
    by_cases hcap : capable_lines data.capability product_id = []
    · rw [simulate_request_eq_nocap _ _ _ _ hcap] at hrow
      exact absurd hrow (List.not_mem_nil _)
    · rw [simulate_request_eq_main _ _ _ _ hcap, compose_result_plan] at hrow
      refine run_allocation_rows (fun row => row.production_date ≤ due_date)
        data product_id extra_cases due_date ?_ row hrow
      intro lid d H F r hdle _ _ _ _
      exact hdle

/-- Witness for C7: the schedule entry of `snapW` dated 5 is in the window
for due date 5 but not for due date 4, and the produced plan row is dated
within the due date. -/
theorem due_date_boundary_witness :
    PlanRow.mk 1 5 50 50 0 ∈ (simulate_request 1 50 6 snapW).plan_rows
    ∧ (PlanRow.mk 1 5 50 50 0).production_date ≤ 6 :=
  ⟨by decide,
    due_date_boundary.2 1 50 6 snapW (PlanRow.mk 1 5 50 50 0) (by decide)⟩

/-- Counterexample for C2: with requested extra cases 0, `simulate_request`
performs no validation and returns an ordinary approved result — the
request is not rejected and no distinct error is surfaced. -/
theorem simulate_request_zero_request_not_rejected :
    simulate_request 1 0 6 snapW
      = { can_fulfill := true
          allocated_total := 0
          remaining := 0
          plan_rows := []
          material_blockers := []
          capacity_blockers := []
          message := Message.approved 0 6 } := by decide

/-- C2 as amended: for `extra_cases ≤ 0` the source attempts no allocation
(the plan is empty and `remaining = extra_cases`), but it does not reject
the request: it returns an ordinary result whose feasibility flag is true
exactly when the material blocker list is empty. -/
theorem simulate_request_nonpositive_request_behavior (product_id : Nat)
    (extra_cases due_date : Int) (data : Snapshot) (h : extra_cases ≤ 0) :
    (simulate_request product_id extra_cases due_date data).plan_rows = []
    ∧ (simulate_request product_id extra_cases due_date data).remaining = extra_cases
    ∧ (simulate_request product_id extra_cases due_date data).allocated_total = 0
    ∧ ((simulate_request product_id extra_cases due_date data).can_fulfill = true
        ↔ (simulate_request product_id extra_cases due_date data).material_blockers
            = []) := by
  by_cases hcap : capable_lines data.capability product_id = []
  · rw [simulate_request_eq_nocap _ _ _ _ hcap]
    refine ⟨rfl, rfl, rfl, ?_⟩
    simp
  · have hrun : run_allocation data product_id extra_cases due_date
        = (extra_cases, []) := by
      unfold run_allocation
      apply foldl_id
      intro a
      unfold alloc_date
      rw [if_pos h]
    rw [simulate_request_eq_main _ _ _ _ hcap, hrun, compose_result_plan,
      compose_result_remaining, compose_result_alloc, compose_result_fulfill,
      compose_result_mat]
    refine ⟨rfl, rfl, by omega, ?_⟩
    constructor
    · exact fun hx => hx.2
    · exact fun hx => ⟨h, hx⟩

/-- Witness for C2 as amended: a negative request at `snapW` is processed,
not rejected, and reported feasible since no material is short for zero
allocated cases. -/
theorem simulate_request_nonpositive_request_behavior_witness :
    (-3 : Int) ≤ 0
    ∧ ((simulate_request 1 (-3) 6 snapW).plan_rows = []
        ∧ (simulate_request 1 (-3) 6 snapW).remaining = -3
        ∧ (simulate_request 1 (-3) 6 snapW).allocated_total = 0
        ∧ ((simulate_request 1 (-3) 6 snapW).can_fulfill = true
            ↔ (simulate_request 1 (-3) 6 snapW).material_blockers = [])) :=
  ⟨by decide, simulate_request_nonpositive_request_behavior 1 (-3) 6 snapW (by decide)⟩

/-- C5: for a positive request (the data-model invariant on requests), the
feasibility flag equals `remaining == 0 AND material shortage list empty`;
the allocated-so-far plan is returned in the result in every case (its
allocated sum equals `allocated_total`). -/
theorem simulate_request_feasibility_rule (product_id : Nat)
    (extra_cases due_date : Int) (data : Snapshot) (h : 0 < extra_cases) :
    ((simulate_request product_id extra_cases due_date data).can_fulfill = true
      ↔ ((simulate_request product_id extra_cases due_date data).remaining = 0
          ∧ (simulate_request product_id extra_cases due_date data).material_blockers
              = []))
    ∧ sum_alloc (simulate_request product_id extra_cases due_date data).plan_rows
        = (simulate_request product_id extra_cases due_date data).allocated_total := by
  by_cases hcap : capable_lines data.capability product_id = []
  · rw [simulate_request_eq_nocap _ _ _ _ hcap]
    constructor
    · simp
    · simp [sum_alloc]
  · rw [simulate_request_eq_main _ _ _ _ hcap]
    have hnn := run_allocation_nonneg data product_id extra_cases due_date h.le
    have hsum := run_allocation_sum data product_id extra_cases due_date
    constructor
    · rw [compose_result_fulfill, compose_result_remaining, compose_result_mat]
      constructor
      · rintro ⟨h1, h2⟩
        exact ⟨le_antisymm h1 hnn, h2⟩
      · rintro ⟨h1, h2⟩
        exact ⟨le_of_eq h1, h2⟩
    · rw [compose_result_plan, compose_result_alloc]
      omega

/-- Witness for C5: the `snapW` run with a positive request of 50 cases. -/
theorem simulate_request_feasibility_rule_witness :
    (0 : Int) < 50
    ∧ (((simulate_request 1 50 6 snapW).can_fulfill = true
        ↔ ((simulate_request 1 50 6 snapW).remaining = 0
            ∧ (simulate_request 1 50 6 snapW).material_blockers = []))
      ∧ sum_alloc (simulate_request 1 50 6 snapW).plan_rows
          = (simulate_request 1 50 6 snapW).allocated_total) :=
  ⟨by decide, simulate_request_feasibility_rule 1 50 6 snapW (by decide)⟩

/-- C4: a BOM material of the requested product appears in the shortage
list exactly when its requirement `qty_per_case × allocated_total` exceeds
on-hand stock, with shortage amount `required − on_hand`; a material with
no inventory record is treated as zero on-hand; and `simulate_request`
runs the check against the tentatively allocated total, not the requested
amount. -/
theorem material_check_spec :
    (∀ (bom : List BomLine) (inv : List InventoryRow) (product_id : Nat)
        (allocated_total : Int) (b : BomLine),
        b ∈ bom → b.product_id = product_id →
        (MatBlocker.shortage b.material_id
            (b.qty_per_case * allocated_total - on_hand inv b.material_id)
            b.supplier_lead_time_days
          ∈ material_check bom inv product_id allocated_total
          ↔ on_hand inv b.material_id < b.qty_per_case * allocated_total))
    ∧ (∀ (inv : List InventoryRow) (material_id : Nat),
        inv.find? (fun i => decide (i.material_id = material_id)) = none →
        on_hand inv material_id = 0)
    ∧ (∀ (product_id : Nat) (extra_cases due_date : Int) (data : Snapshot),
        capable_lines data.capability product_id ≠ [] →
        (simulate_request product_id extra_cases due_date data).material_blockers
          = material_check data.bom data.inventory product_id
              ((simulate_request product_id extra_cases due_date data).allocated_total)) := by
  refine ⟨?_, ?_, ?_⟩
  · intro bom inv product_id allocated_total b hb hpid
    have hmem : b ∈ bom.filter (fun b => decide (b.product_id = product_id)) :=
      List.mem_filter.mpr ⟨hb, by simp [hpid]⟩
    have hne : bom.filter (fun b => decide (b.product_id = product_id)) ≠ [] := by
      intro h0
      rw [h0] at hmem
      exact absurd hmem (List.not_mem_nil _)
    simp only [material_check]
    rw [if_neg hne]
    constructor
    · intro hin
      rcases List.mem_filterMap.mp hin with ⟨b2, hb2, hfb2⟩
      by_cases hc : on_hand inv b2.material_id < b2.qty_per_case * allocated_total
      · rw [if_pos hc] at hfb2
        simp only [Option.some.injEq, MatBlocker.shortage.injEq] at hfb2
        obtain ⟨e1, e2, e3⟩ := hfb2
        rw [e1] at hc e2
        omega
      · rw [if_neg hc] at hfb2
        exact absurd hfb2 (by simp)
    · intro hc
      apply List.mem_filterMap.mpr
      refine ⟨b, hmem, ?_⟩
      rw [if_pos hc]
  · intro inv material_id hfind
    simp [on_hand, hfind]
  · intro product_id extra_cases due_date data hcap
    rw [simulate_request_eq_main _ _ _ _ hcap, compose_result_mat,
      compose_result_alloc]

/-- Witness for C4: at `snapW` material 7 requires 100 against 10 on hand
and is reported short by 90; an empty inventory reads as zero on-hand; and
the blockers of the run equal the check at the allocated total. -/
theorem material_check_spec_witness :
    MatBlocker.shortage 7 (2 * 50 - on_hand snapW.inventory 7) (some 3)
      ∈ material_check snapW.bom snapW.inventory 1 50
    ∧ on_hand ([] : List InventoryRow) 7 = 0
    ∧ (simulate_request 1 50 6 snapW).material_blockers
        = material_check snapW.bom snapW.inventory 1
            ((simulate_request 1 50 6 snapW).allocated_total) :=
  ⟨(material_check_spec.1 snapW.bom snapW.inventory 1 50 ⟨1, 7, 2, some 3⟩
      (by decide) rfl).mpr (by decide),
    material_check_spec.2.1 [] 7 rfl,
    material_check_spec.2.2 1 50 6 snapW (by decide)⟩

/-- Counterexample for C9: a product with no BOM rows but also no capable
line gets the no-capable-line material note, not the no-BOM note, so the
claim fails as stated for such snapshots. -/
theorem simulate_request_no_bom_note_cex :
    List.filter (fun b => decide (b.product_id = 1)) snapNoCapNoBom.bom = []
    ∧ (simulate_request 1 50 6 snapNoCapNoBom).material_blockers
        = [MatBlocker.noCapableLine]
    ∧ (simulate_request 1 50 6 snapNoCapNoBom).material_blockers
        ≠ [MatBlocker.noBom] := by decide

/-- C9 as amended: provided at least one capable line exists (so the
material check is reached at all), a product with no BOM rows yields
exactly the single no-BOM informational note as its material blocker
list. -/
theorem simulate_request_no_bom_note (product_id : Nat)
    (extra_cases due_date : Int) (data : Snapshot)
    (hcap : capable_lines data.capability product_id ≠ [])
    (hbom : List.filter (fun b => decide (b.product_id = product_id)) data.bom = []) :
    (simulate_request product_id extra_cases due_date data).material_blockers
      = [MatBlocker.noBom] := by
  rw [simulate_request_eq_main _ _ _ _ hcap, compose_result_mat]
  simp [material_check, hbom]

/-- Witness for C9 as amended: `snapNoBom` has a capable line and no BOM
rows, and the run reports exactly the no-BOM note. -/
theorem simulate_request_no_bom_note_witness :
    capable_lines snapNoBom.capability 1 ≠ []
    ∧ List.filter (fun b => decide (b.product_id = 1)) snapNoBom.bom = []
    ∧ (simulate_request 1 50 6 snapNoBom).material_blockers = [MatBlocker.noBom] :=
  ⟨by decide, by decide,
    simulate_request_no_bom_note 1 50 6 snapNoBom (by decide) (by decide)⟩

end FlowKa
